import Mathlib

/-!
Verification of `scripts/update_repos.py`: a sequential pipeline that queries
the GitHub search API, projects each raw repository object onto a fixed field
set, and persists the results as JSON snapshot files.

The embedding models Python values flowing through the script as a `Json`
tree (Python dicts become ordered association lists, preserving insertion
order as Python dicts do).  Fallible Python operations are modelled with
`Except PyError`; console output, the throttling sleep and other side
effects of the fetcher are modelled as an explicit event trace.
-/

namespace UpdateRepos

/-- A JSON value, as produced by `response.json()` and consumed by
`json.dump`.  Numbers are integers: every numeric field handled by the
script (star and fork counts, the metadata count) is an integer. -/
inductive Json where
  | null : Json
  | bool : Bool → Json
  | num : Int → Json
  | str : String → Json
  | arr : List Json → Json
  | obj : List (String × Json) → Json
deriving Inhabited

/-- Python `d.get(k, default)` on a dict modelled as an association list:
the value bound to `k` when the key is present (even when that value is
`None`), otherwise the default.  Never raises. -/
def dictGet (d : List (String × Json)) (k : String) (default : Json) : Json :=
  match d.lookup k with
  | some v => v
  | none => default

/-- `format_repo_data(repo, affiliate_link=None)` (lines 97-114).
Projects a raw repository dict onto the nine documented fields via
`repo.get(field, default)`, then appends `affiliate_link` only when the
argument is truthy (Python: `if affiliate_link:` — `None` and the empty
string are falsy). -/
def format_repo_data (repo : List (String × Json)) (affiliate_link : Option String := none) :
    List (String × Json) :=
  let data : List (String × Json) :=
    [ ("name", dictGet repo "full_name" (Json.str "")),
      ("html_url", dictGet repo "html_url" (Json.str "")),
      ("description", dictGet repo "description" (Json.str "")),
      ("stargazers_count", dictGet repo "stargazers_count" (Json.num 0)),
      ("forks_count", dictGet repo "forks_count" (Json.num 0)),
      ("language", dictGet repo "language" (Json.str "")),
      ("updated_at", dictGet repo "updated_at" (Json.str "")),
      ("created_at", dictGet repo "created_at" (Json.str "")),
      ("topics", dictGet repo "topics" (Json.arr [])) ]
  match affiliate_link with
  | some l => if l ≠ "" then data ++ [("affiliate_link", Json.str l)] else data
  | none => data

def GITHUB_API_URL : String := "https://api.github.com"

/-- Decimal value of a digit string (each char assumed `'0'`-`'9'`). -/
def digitsVal (ds : List Char) : Nat :=
  ds.foldl (fun a c => a * 10 + (c.toNat - 48)) 0

/-- The Python exceptions that can escape the modelled fragments uncaught. -/
inductive PyError where
  | valueError
  | attributeError
deriving Repr, DecidableEq

/-- Python whitespace as stripped by `int(...)` / `str.strip()`. -/
def isPySpace (c : Char) : Bool :=
  c = ' ' || c = '\t' || c = '\n' || c = '\r' || c = '\x0b' || c = '\x0c'

/-- `str.strip()` on a list of characters. -/
def stripChars (l : List Char) : List Char :=
  ((l.dropWhile isPySpace).reverse.dropWhile isPySpace).reverse

/-- Python `int(s)` on a string: surrounding whitespace stripped, then an
optional sign followed by at least one digit; anything else raises
`ValueError`.  (Python also accepts underscore digit separators; no value
relevant here contains one, so they are not modelled.) -/
def pyInt (s : String) : Except PyError Int :=
  match stripChars s.data with
  | [] => .error .valueError
  | '-' :: ds => if ds ≠ [] ∧ ds.all Char.isDigit then .ok (-(digitsVal ds : Int)) else .error .valueError
  | '+' :: ds => if ds ≠ [] ∧ ds.all Char.isDigit then .ok (digitsVal ds : Int) else .error .valueError
  | ds => if ds.all Char.isDigit then .ok (digitsVal ds : Int) else .error .valueError

/-- Observable side effects of the fetcher: the outgoing GET, the console
lines, and the throttling sleep (`sleepTenths 5` is `time.sleep(0.5)`,
measured in tenths of a second). -/
inductive Event where
  | getRequest (url : String) (params : List (String × String))
  | printRemaining (s : String)
  | warnLowRemaining (s : String)
  | printRateLimited (body : String)
  | printError (msg : String)
  | sleepTenths (n : Nat)
deriving Repr, DecidableEq

/-- What the HTTP layer handed back when the GET itself did not fail:
status code, the optional `X-RateLimit-Remaining` header, the decoded JSON
body (`none` when the body is malformed, in which case `response.json()`
raises), and the raw text used by the 403 log line. -/
structure HttpResponse where
  status : Nat
  remainingHeader : Option String
  body : Option Json
  text : String

/-- Outcome of `requests.get`: either the call itself raised a
`RequestException` (network failure, timeout, DNS, ...) or a response came
back. -/
inductive RequestOutcome where
  | netFailure (msg : String)
  | ok (r : HttpResponse)

/-- The `params` dict of the search GET (line 60-65). -/
def searchParams (query sort : String) (per_page : Nat) : List (String × String) :=
  [("q", query), ("sort", sort), ("order", "desc"), ("per_page", toString per_page)]

/-- Python truthiness of `response.headers.get(...)`: `None` and the empty
string are falsy, every other string truthy. -/
def truthyHeader : Option String → Bool
  | none => false
  | some s => s != ""

/-- Python `data.get(k, default)` on the decoded JSON body: a dict looks the
key up, any non-dict value has no `.get` attribute and raises
`AttributeError`. -/
def jsonDictGet (j : Json) (k : String) (default : Json) : Except PyError Json :=
  match j with
  | .obj kvs => .ok (dictGet kvs k default)
  | _ => .error .attributeError

/-- `search_repositories(query, sort="stars", per_page=30)` (lines 57-94) as
a function of the request's outcome.  Returns the event trace together with
the returned value or an uncaught exception.  Failure modes caught inside
the function: a network-level `RequestException` from `requests.get`; an
`HTTPError` from `raise_for_status` (logged specially when the status is
403); and a malformed body, whose `requests.exceptions.JSONDecodeError`
(raised by `response.json()`) is a `RequestException` subclass caught by the
second handler.  A truthy non-numeric rate-limit header would raise
`ValueError` at `int(remaining)`, uncaught; a decoded body that is not a
dict would raise `AttributeError` at `data.get`, uncaught. -/
def search_repositories (query : String) (sort : String := "stars") (per_page : Nat := 30)
    (out : RequestOutcome) : List Event × Except PyError Json :=
  let evs0 := [Event.getRequest (GITHUB_API_URL ++ "/search/repositories") (searchParams query sort per_page)]
  match out with
  | .netFailure msg => (evs0 ++ [Event.printError msg], .ok (Json.arr []))
  | .ok r =>
    let remaining := r.remainingHeader
    let evs := if truthyHeader remaining then evs0 ++ [Event.printRemaining (remaining.getD "")] else evs0
    if 400 ≤ r.status then
      if r.status = 403 then
        (evs ++ [Event.printRateLimited r.text], .ok (Json.arr []))
      else
        (evs ++ [Event.printError "HTTPError"], .ok (Json.arr []))
    else
      match r.body with
      | none => (evs ++ [Event.printError "JSONDecodeError"], .ok (Json.arr []))
      | some data =>
        match remaining with
        | some s =>
          if s != "" then
            match pyInt s with
            | .error e => (evs, .error e)
            | .ok n =>
              let evs := if n < 10 then evs ++ [Event.warnLowRemaining s] else evs
              (evs ++ [Event.sleepTenths 5], jsonDictGet data "items" (Json.arr []))
          else (evs ++ [Event.sleepTenths 5], jsonDictGet data "items" (Json.arr []))
        | none => (evs ++ [Event.sleepTenths 5], jsonDictGet data "items" (Json.arr []))

/-- The request outcomes C2 classifies as failing fetches: the GET raised, or
an HTTP error status came back (403 or any other status ≥ 400), or the body
is malformed (not JSON). -/
def failingFetch (out : RequestOutcome) : Bool :=
  match out with
  | .netFailure _ => true
  | .ok r => decide (400 ≤ r.status) || r.body.isNone

/-- The happy path of `search_repositories`: no exception is raised anywhere
in its body for this outcome — the GET succeeded, `raise_for_status` saw a
status below 400, the body decoded to a dict (so `.get` exists), and a
truthy rate-limit header parses as an integer. -/
def fetchNoException (out : RequestOutcome) : Bool :=
  match out with
  | .netFailure _ => false
  | .ok r =>
    decide (r.status < 400) &&
    (match r.body with
     | some (.obj _) => true
     | _ => false) &&
    (match r.remainingHeader with
     | none => true
     | some s => (s == "") || (match pyInt s with | .ok _ => true | .error _ => false))

/-- Proleptic Gregorian civil date `(year, month, day)` of a day number
(days since 1970-01-01), for day numbers at or after the epoch.  Standard
era-based conversion; models the calendar date held by a naive local
`datetime`. -/
def civilFromDays (z : Nat) : Nat × Nat × Nat :=
  let zd := z + 719468
  let era := zd / 146097
  let doe := zd % 146097
  let yoe := (doe - doe / 1460 + doe / 36524 - doe / 146096) / 365
  let y := yoe + era * 400
  let doy := doe - (365 * yoe + yoe / 4 - yoe / 100)
  let mp := (5 * doy + 2) / 153
  let d := doy - (153 * mp + 2) / 5 + 1
  let m := if mp < 10 then mp + 3 else mp - 9
  (if m ≤ 2 then y + 1 else y, m, d)

/-- Zero-padded two-digit decimal. -/
def pad2 (n : Nat) : String := if n < 10 then "0" ++ toString n else toString n

/-- `datetime.strftime("%Y-%m-%d")` on a day number (month and day zero
padded; every year in this script's lifetime already has four digits). -/
def strftimeYmd (z : Nat) : String :=
  match civilFromDays z with
  | (y, m, d) => toString y ++ "-" ++ pad2 m ++ "-" ++ pad2 d

/-- Query built by `get_popular_repos` (line 120). -/
def get_popular_repos_query : String := "stars:>5000 topic:machine-learning"

/-- Query built by `get_trending_repos` (lines 128-130): `today` is the
current local calendar date as a day number, and
`datetime.now() - timedelta(days=7)` falls on the date 7 days earlier. -/
def get_trending_repos_query (today : Nat) : String :=
  "pushed:>" ++ strftimeYmd (today - 7) ++ " stars:>1000 topic:ai"

/-- Query built by `get_new_repos` (lines 138-139). -/
def get_new_repos_query (today : Nat) : String :=
  "created:>" ++ strftimeYmd (today - 30) ++ " stars:>50"

/-- The module-level category keyword table (lines 22-30), in insertion
order. -/
def CATEGORIES : List (String × List String) :=
  [ ("LLM and Generative AI", ["llm", "large language model", "gpt", "chatbot", "generative-ai"]),
    ("Machine Learning", ["machine learning", "deep learning", "tensorflow", "pytorch"]),
    ("Natural Language Processing", ["nlp", "natural language processing", "transformers", "bert"]),
    ("AI Tools", ["ai tools", "copilot", "ai assistant", "ai agent"]),
    ("Data Science", ["data science", "jupyter", "pandas", "data analysis"]),
    ("Computer Vision", ["computer vision", "opencv", "image recognition", "yolo"]),
    ("MLOps", ["mlops", "ml infrastructure", "model deployment", "mlflow"]) ]

/-- Query built by `get_category_repos` for one category (line 152):
`f"{keywords[0]} stars:>1000"`.  (`keywords[0]` presumes a non-empty list;
every keyword list in `CATEGORIES` is non-empty.) -/
def get_category_repos_query (keywords : List String) : String :=
  keywords.headD "" ++ " stars:>1000"

/-- The category-to-query association produced by the loop of
`get_category_repos` (lines 149-153). -/
def get_category_repos_queries : List (String × String) :=
  CATEGORIES.map fun p => (p.1, get_category_repos_query p.2)

def ASSETS_DIR : String := "assets"

def POPULAR_FILE : String := ASSETS_DIR ++ "/popular.json"

def NEW_FILE : String := ASSETS_DIR ++ "/new.json"

def CATEGORIES_FILE : String := ASSETS_DIR ++ "/categories.json"

/-- Default metadata block of `save_json` (lines 165-169), used only when no
metadata argument is supplied; `now` is `datetime.now().isoformat()`. -/
def defaultMeta (now : String) : Json :=
  Json.obj
    [ ("updated_at", Json.str now),
      ("source", Json.str "GitHub API"),
      ("api_url", Json.str "https://api.github.com/search/repositories") ]

/-- `save_json(data, filepath, metadata=None)` (lines 159-174): the
`(filepath, envelope)` pair serialized to disk.  (The conditional
`data if isinstance(data, list) else data` is `data` in both branches.) -/
def save_json (data : Json) (filepath : String) (metadata : Option Json) (now : String) :
    String × Json :=
  (filepath, Json.obj [("metadata", metadata.getD (defaultMeta now)), ("repositories", data)])

/-- The four `save_json` calls of `main` (lines 187-234) as a function of
the single `update_time` sample (line 189) and of the formatted results the
four getters returned.  Each metadata dict is transcribed literally from the
source. -/
def mainWrites (update_time : String) (popular_repos trending_repos new_repos : List Json)
    (category_repos : List (String × List Json)) : List (String × Json) :=
  [ save_json (Json.arr popular_repos) POPULAR_FILE (some (Json.obj
      [ ("updated_at", Json.str update_time),
        ("source", Json.str "GitHub API"),
        ("api_url", Json.str "https://api.github.com/search/repositories"),
        ("description", Json.str "Popular repositories with LLM/AI/ML/NLP focus"),
        ("count", Json.num (popular_repos.length : Int)) ])) update_time,
    save_json (Json.arr trending_repos) (ASSETS_DIR ++ "/trending.json") (some (Json.obj
      [ ("updated_at", Json.str update_time),
        ("source", Json.str "GitHub API"),
        ("api_url", Json.str "https://api.github.com/search/repositories"),
        ("description", Json.str "Trending repositories in the last 7 days"),
        ("count", Json.num (trending_repos.length : Int)) ])) update_time,
    save_json (Json.arr new_repos) NEW_FILE (some (Json.obj
      [ ("updated_at", Json.str update_time),
        ("source", Json.str "GitHub API"),
        ("api_url", Json.str "https://api.github.com/search/repositories"),
        ("description", Json.str "Recently created repositories (last 30 days)"),
        ("count", Json.num (new_repos.length : Int)) ])) update_time,
    save_json (Json.obj (category_repos.map fun p => (p.1, Json.arr p.2))) CATEGORIES_FILE
      (some (Json.obj
      [ ("updated_at", Json.str update_time),
        ("source", Json.str "GitHub API"),
        ("api_url", Json.str "https://api.github.com/search/repositories"),
        ("description", Json.str "Repositories organized by AI/ML categories"),
        ("categories", Json.arr (category_repos.map fun p => Json.str p.1)),
        ("count", Json.num (((category_repos.map fun p => p.2.length).sum : Nat) : Int)) ]))
      update_time ]

/-- Field lookup on a JSON object (`none` on non-objects or absent keys). -/
def jLookup (j : Json) (k : String) : Option Json :=
  match j with
  | .obj kvs => kvs.lookup k
  | _ => none

/-- Sum of the lengths of the array-valued fields of a JSON object
(non-array values contribute nothing; every value of the categories
snapshot is an array). -/
def sumArrLens : List (String × Json) → Nat
  | [] => 0
  | (_, Json.arr xs) :: rest => xs.length + sumArrLens rest
  | _ :: rest => sumArrLens rest

/-- `metadata.count` consistency of one written snapshot envelope: the count
equals the length of the repositories array, or the summed lengths of the
category arrays for the mapping-shaped snapshot. -/
def countMatches (env : Json) : Bool :=
  match jLookup env "metadata", jLookup env "repositories" with
  | some meta, some (Json.arr xs) =>
    match jLookup meta "count" with
    | some (Json.num n) => n == (xs.length : Int)
    | _ => false
  | some meta, some (Json.obj kvs) =>
    match jLookup meta "count" with
    | some (Json.num n) => n == (sumArrLens kvs : Int)
    | _ => false
  | _, _ => false

/-- The `metadata.updated_at` of a written snapshot envelope. -/
def metaUpdatedAt (env : Json) : Option Json :=
  (jLookup env "metadata").bind fun m => jLookup m "updated_at"

/-- Decimal digit test by code point (`'0'`-`'9'`). -/
def isDig (c : Char) : Bool := 48 ≤ c.toNat && c.toNat ≤ 57

/-- Decimal digits of a natural number, most significant first. -/
def natDigits (n : Nat) : List Char :=
  if n < 10 then [Char.ofNat (48 + n)]
  else natDigits (n / 10) ++ [Char.ofNat (48 + n % 10)]
termination_by n
decreasing_by exact Nat.div_lt_self (by omega) (by omega)

/-- `repr` of a Python int, as emitted by `json.dump` for numbers. -/
def intChars (i : Int) : List Char :=
  if i < 0 then '-' :: natDigits i.natAbs else natDigits i.toNat

/-- Lowercase hexadecimal digit for a value below 16. -/
def hexDigitChar (n : Nat) : Char :=
  if n < 10 then Char.ofNat (48 + n) else Char.ofNat (87 + n)

/-- How `json.dump(..., ensure_ascii=False)` renders one character inside a
string literal: short escapes for the quote, backslash and the five named
control characters, `\u00XX` for the remaining control characters, and
everything else (including non-ASCII) literally. -/
def escapeChar (c : Char) : List Char :=
  if c = '"' then ['\\', '"']
  else if c = '\\' then ['\\', '\\']
  else if c = '\n' then ['\\', 'n']
  else if c = '\r' then ['\\', 'r']
  else if c = '\t' then ['\\', 't']
  else if c.toNat = 8 then ['\\', 'b']
  else if c.toNat = 12 then ['\\', 'f']
  else if c.toNat < 32 then ['\\', 'u', '0', '0', hexDigitChar (c.toNat / 16), hexDigitChar (c.toNat % 16)]
  else [c]

/-- A JSON string literal: quote, escaped characters, quote. -/
def escapeString (s : String) : List Char :=
  '"' :: (s.data.map escapeChar).flatten ++ ['"']

/-- `n` spaces of indentation. -/
def spaces (n : Nat) : List Char := List.replicate n ' '

mutual

/-- `json.dump(v, f, ensure_ascii=False, indent=2)` at indentation `ind`:
empty containers render as two brackets, non-empty ones put every item on
its own line indented two further, the key separator is `": "` and the item
separator `","` followed by the newline. -/
def serVal : Nat → Json → List Char
  | _, .null => ['n', 'u', 'l', 'l']
  | _, .bool true => ['t', 'r', 'u', 'e']
  | _, .bool false => ['f', 'a', 'l', 's', 'e']
  | _, .num i => intChars i
  | _, .str s => escapeString s
  | _, .arr [] => ['[', ']']
  | ind, .arr (x :: xs) =>
    '[' :: '\n' :: serItems (ind + 2) x xs ++ '\n' :: spaces ind ++ [']']
  | _, .obj [] => ['\x7b', '\x7d']
  | ind, .obj (kv :: kvs) =>
    '\x7b' :: '\n' :: serMembers (ind + 2) kv kvs ++ '\n' :: spaces ind ++ ['\x7d']
termination_by _ j => sizeOf j
decreasing_by all_goals (simp; try omega)

/-- The comma-separated, indented lines of a non-empty array body. -/
def serItems : Nat → Json → List Json → List Char
  | ind, x, [] => spaces ind ++ serVal ind x
  | ind, x, y :: ys => spaces ind ++ serVal ind x ++ ',' :: '\n' :: serItems ind y ys
termination_by _ x xs => sizeOf x + sizeOf xs
decreasing_by all_goals (simp; try omega)

/-- The comma-separated, indented lines of a non-empty object body. -/
def serMembers : Nat → (String × Json) → List (String × Json) → List Char
  | ind, (k, v), [] => spaces ind ++ escapeString k ++ ':' :: ' ' :: serVal ind v
  | ind, (k, v), m :: ms =>
    spaces ind ++ escapeString k ++ ':' :: ' ' :: serVal ind v ++ ',' :: '\n' :: serMembers ind m ms
termination_by _ kv kvs => sizeOf kv + sizeOf kvs
decreasing_by all_goals (simp; try omega)

end

/-- The full text `json.dump` writes for a value (top level at indent 0, no
trailing newline). -/
def dumpJson (j : Json) : String := String.mk (serVal 0 j)

/-- JSON whitespace accepted between tokens by `json.loads`. -/
def isJsonWs (c : Char) : Bool := c = ' ' || c = '\n' || c = '\t' || c = '\r'

/-- Drop leading JSON whitespace. -/
def skipWs : List Char → List Char
  | [] => []
  | c :: cs => if isJsonWs c then skipWs cs else c :: cs

/-- Value of one hexadecimal digit. -/
def hexVal (c : Char) : Option Nat :=
  if 48 ≤ c.toNat ∧ c.toNat ≤ 57 then some (c.toNat - 48)
  else if 97 ≤ c.toNat ∧ c.toNat ≤ 102 then some (c.toNat - 87)
  else if 65 ≤ c.toNat ∧ c.toNat ≤ 70 then some (c.toNat - 55)
  else none

/-- Body of a JSON string literal, after the opening quote: unescapes the
short escapes and `\uXXXX`, rejects raw control characters (as the strict
`json.loads` does), and stops at the closing quote, returning the decoded
characters and the unconsumed input. -/
def parseStrBody : List Char → Option (List Char × List Char)
  | [] => none
  | c :: cs =>
    if c = '"' then some ([], cs)
    else if c = '\\' then
      match cs with
      | [] => none
      | e :: cs' =>
        if e = '"' then (parseStrBody cs').map fun p => ('"' :: p.1, p.2)
        else if e = '\\' then (parseStrBody cs').map fun p => ('\\' :: p.1, p.2)
        else if e = '/' then (parseStrBody cs').map fun p => ('/' :: p.1, p.2)
        else if e = 'b' then (parseStrBody cs').map fun p => (Char.ofNat 8 :: p.1, p.2)
        else if e = 'f' then (parseStrBody cs').map fun p => (Char.ofNat 12 :: p.1, p.2)
        else if e = 'n' then (parseStrBody cs').map fun p => ('\n' :: p.1, p.2)
        else if e = 'r' then (parseStrBody cs').map fun p => ('\r' :: p.1, p.2)
        else if e = 't' then (parseStrBody cs').map fun p => ('\t' :: p.1, p.2)
        else if e = 'u' then
          match cs' with
          | h1 :: h2 :: h3 :: h4 :: cs2 =>
            match hexVal h1, hexVal h2, hexVal h3, hexVal h4 with
            | some a, some b, some c2, some d =>
              (parseStrBody cs2).map fun p =>
                (Char.ofNat (((a * 16 + b) * 16 + c2) * 16 + d) :: p.1, p.2)
            | _, _, _, _ => none
          | _ => none
        else none
    else if c.toNat < 32 then none
    else (parseStrBody cs).map fun p => (c :: p.1, p.2)
termination_by l => l.length
decreasing_by all_goals simp_arith

/-- Longest prefix of decimal digits. -/
def takeDigits : List Char → List Char × List Char
  | [] => ([], [])
  | c :: cs =>
    if isDig c then
      match takeDigits cs with
      | (ds, r) => (c :: ds, r)
    else ([], c :: cs)

/-- An integer numeral: optional minus sign, then at least one digit.  (The
grammar of `json.loads` also covers floats; every number this script
serializes is an int, which is the fragment the round trip exercises.) -/
def parseNum (l : List Char) : Option (Int × List Char) :=
  match l with
  | [] => none
  | c :: cs =>
    if c = '-' then
      match takeDigits cs with
      | (ds, r) => if ds = [] then none else some (-(digitsVal ds : Int), r)
    else
      match takeDigits (c :: cs) with
      | (ds, r) => if ds = [] then none else some ((digitsVal ds : Int), r)

/-- Match an expected literal suffix of a keyword token. -/
def expect : List Char → List Char → Option (List Char)
  | [], l => some l
  | _ :: _, [] => none
  | p :: ps, c :: cs => if c = p then expect ps cs else none

mutual

/-- One JSON value (fuel-indexed recursive descent, as `json.loads` reads
the serialized snapshot): leading whitespace skipped, then dispatch on the
first character. -/
def parseVal : Nat → List Char → Option (Json × List Char)
  | 0, _ => none
  | fuel + 1, l =>
    match skipWs l with
    | [] => none
    | c :: cs =>
      if c = 'n' then (expect ['u', 'l', 'l'] cs).map fun r => (Json.null, r)
      else if c = 't' then (expect ['r', 'u', 'e'] cs).map fun r => (Json.bool true, r)
      else if c = 'f' then (expect ['a', 'l', 's', 'e'] cs).map fun r => (Json.bool false, r)
      else if c = '"' then (parseStrBody cs).map fun p => (Json.str (String.mk p.1), p.2)
      else if c = '[' then (parseElems fuel cs).map fun p => (Json.arr p.1, p.2)
      else if c = '\x7b' then (parseMembers fuel cs).map fun p => (Json.obj p.1, p.2)
      else (parseNum (c :: cs)).map fun p => (Json.num p.1, p.2)

/-- Array items after the opening bracket. -/
def parseElems : Nat → List Char → Option (List Json × List Char)
  | 0, _ => none
  | fuel + 1, l =>
    match skipWs l with
    | [] => none
    | c :: cs =>
      if c = ']' then some ([], cs)
      else
        match parseVal fuel (c :: cs) with
        | none => none
        | some (v, r) =>
          match skipWs r with
          | [] => none
          | c2 :: cs2 =>
            if c2 = ',' then (parseElems fuel cs2).map fun p => (v :: p.1, p.2)
            else if c2 = ']' then some ([v], cs2)
            else none

/-- Object members after the opening brace. -/
def parseMembers : Nat → List Char → Option (List (String × Json) × List Char)
  | 0, _ => none
  | fuel + 1, l =>
    match skipWs l with
    | [] => none
    | c :: cs =>
      if c = '\x7d' then some ([], cs)
      else if c = '"' then
        match parseStrBody cs with
        | none => none
        | some (k, r) =>
          match skipWs r with
          | [] => none
          | c2 :: cs2 =>
            if c2 = ':' then
              match parseVal fuel cs2 with
              | none => none
              | some (v, r2) =>
                match skipWs r2 with
                | [] => none
                | c3 :: cs3 =>
                  if c3 = ',' then
                    (parseMembers fuel cs3).map fun p => ((String.mk k, v) :: p.1, p.2)
                  else if c3 = '\x7d' then some ([(String.mk k, v)], cs3)
                  else none
            else none
      else none

end

/-- `json.loads` on a whole file: one value, then only whitespace may
remain.  The fuel `length + 1` always suffices for input produced by
`dumpJson` (proved below via `sizeJ`). -/
def parseJson (s : String) : Option Json :=
  match parseVal (s.data.length + 1) s.data with
  | some (v, r) => if skipWs r = [] then some v else none
  | none => none

mutual

/-- Fuel measure of a JSON value for the parser: enough nesting budget for
`parseVal`. -/
def sizeJ : Json → Nat
  | .arr xs => 2 + sizeL xs
  | .obj kvs => 2 + sizeM kvs
  | _ => 1

/-- Fuel measure of array elements. -/
def sizeL : List Json → Nat
  | [] => 0
  | x :: xs => 1 + sizeJ x + sizeL xs

/-- Fuel measure of object members. -/
def sizeM : List (String × Json) → Nat
  | [] => 0
  | kv :: kvs => 1 + sizeJ kv.2 + sizeM kvs

end

/-- The continuation after a serialized value must not begin with a digit
(so a numeral is not extended); every continuation the serializer produces
starts with a comma, newline, bracket or nothing. -/
def headSafe : List Char → Prop
  | [] => True
  | c :: _ => isDig c = false

/-- C3: for every raw repository object, each projected field that is absent
from the object comes out as its default — empty string for the six string
fields, zero for the two count fields, the empty list for `topics` — and
`format_repo_data` is total (it never raises). -/
theorem format_repo_data_defaults (repo : List (String × Json)) (al : Option String) :
    (repo.lookup "full_name" = none → (format_repo_data repo al).lookup "name" = some (Json.str "")) ∧
    (repo.lookup "html_url" = none → (format_repo_data repo al).lookup "html_url" = some (Json.str "")) ∧
    (repo.lookup "description" = none → (format_repo_data repo al).lookup "description" = some (Json.str "")) ∧
    (repo.lookup "stargazers_count" = none → (format_repo_data repo al).lookup "stargazers_count" = some (Json.num 0)) ∧
    (repo.lookup "forks_count" = none → (format_repo_data repo al).lookup "forks_count" = some (Json.num 0)) ∧
    (repo.lookup "language" = none → (format_repo_data repo al).lookup "language" = some (Json.str "")) ∧
    (repo.lookup "updated_at" = none → (format_repo_data repo al).lookup "updated_at" = some (Json.str "")) ∧
    (repo.lookup "created_at" = none → (format_repo_data repo al).lookup "created_at" = some (Json.str "")) ∧
    (repo.lookup "topics" = none → (format_repo_data repo al).lookup "topics" = some (Json.arr [])) := by
  rcases al with _ | l
  · refine ⟨?_, ?_, ?_, ?_, ?_, ?_, ?_, ?_, ?_⟩ <;>
      · intro h
        simp [format_repo_data, dictGet, h, List.lookup]
  · by_cases hl : l = "" <;>
      refine ⟨?_, ?_, ?_, ?_, ?_, ?_, ?_, ?_, ?_⟩ <;>
        · intro h
          simp [format_repo_data, dictGet, h, hl, List.lookup]

/-- Witness for C3: the empty raw object yields every default. -/
theorem format_repo_data_defaults_witness :
    (format_repo_data [] none).lookup "name" = some (Json.str "") ∧
    (format_repo_data [] none).lookup "html_url" = some (Json.str "") ∧
    (format_repo_data [] none).lookup "description" = some (Json.str "") ∧
    (format_repo_data [] none).lookup "stargazers_count" = some (Json.num 0) ∧
    (format_repo_data [] none).lookup "forks_count" = some (Json.num 0) ∧
    (format_repo_data [] none).lookup "language" = some (Json.str "") ∧
    (format_repo_data [] none).lookup "updated_at" = some (Json.str "") ∧
    (format_repo_data [] none).lookup "created_at" = some (Json.str "") ∧
    (format_repo_data [] none).lookup "topics" = some (Json.arr []) :=
  have h := format_repo_data_defaults [] none
  ⟨h.1 rfl, h.2.1 rfl, h.2.2.1 rfl, h.2.2.2.1 rfl, h.2.2.2.2.1 rfl, h.2.2.2.2.2.1 rfl,
    h.2.2.2.2.2.2.1 rfl, h.2.2.2.2.2.2.2.1 rfl, h.2.2.2.2.2.2.2.2 rfl⟩

/-- C4: a non-empty affiliate link is included as the `affiliate_link` field;
with no affiliate link the key is absent from the record entirely (the
lookup yields `none`, not a null value). -/
theorem format_repo_data_affiliate (repo : List (String × Json)) :
    (∀ l : String, l ≠ "" → (format_repo_data repo (some l)).lookup "affiliate_link" = some (Json.str l)) ∧
    (format_repo_data repo none).lookup "affiliate_link" = none := by
  constructor
  · intro l hl
    simp [format_repo_data, dictGet, hl, List.lookup]
  · simp [format_repo_data, dictGet, List.lookup]

/-- Witness for C4 at a concrete link. -/
theorem format_repo_data_affiliate_witness :
    (format_repo_data [] (some "https://example.com/aff")).lookup "affiliate_link" =
      some (Json.str "https://example.com/aff") :=
  (format_repo_data_affiliate []).1 "https://example.com/aff" (by decide)

/-- C10: a projected field that is present but bound to JSON null is passed
through unchanged — the defaults of `repo.get` apply only to absent keys. -/
theorem format_repo_data_null_passthrough (repo : List (String × Json)) (al : Option String) :
    (repo.lookup "full_name" = some Json.null → (format_repo_data repo al).lookup "name" = some Json.null) ∧
    (repo.lookup "html_url" = some Json.null → (format_repo_data repo al).lookup "html_url" = some Json.null) ∧
    (repo.lookup "description" = some Json.null → (format_repo_data repo al).lookup "description" = some Json.null) ∧
    (repo.lookup "stargazers_count" = some Json.null → (format_repo_data repo al).lookup "stargazers_count" = some Json.null) ∧
    (repo.lookup "forks_count" = some Json.null → (format_repo_data repo al).lookup "forks_count" = some Json.null) ∧
    (repo.lookup "language" = some Json.null → (format_repo_data repo al).lookup "language" = some Json.null) ∧
    (repo.lookup "updated_at" = some Json.null → (format_repo_data repo al).lookup "updated_at" = some Json.null) ∧
    (repo.lookup "created_at" = some Json.null → (format_repo_data repo al).lookup "created_at" = some Json.null) ∧
    (repo.lookup "topics" = some Json.null → (format_repo_data repo al).lookup "topics" = some Json.null) := by
  rcases al with _ | l
  · refine ⟨?_, ?_, ?_, ?_, ?_, ?_, ?_, ?_, ?_⟩ <;>
      · intro h
        simp [format_repo_data, dictGet, h, List.lookup]
  · by_cases hl : l = "" <;>
      refine ⟨?_, ?_, ?_, ?_, ?_, ?_, ?_, ?_, ?_⟩ <;>
        · intro h
          simp [format_repo_data, dictGet, h, hl, List.lookup]

/-- Witness for C10: an object whose `description` is JSON null (as the API
returns for repositories without a description) keeps the null. -/
theorem format_repo_data_null_passthrough_witness :
    (format_repo_data [("description", Json.null)] none).lookup "description" = some Json.null :=
  (format_repo_data_null_passthrough [("description", Json.null)] none).2.2.1 rfl

/-- C2: every failing fetch — network failure, HTTP 403, any other HTTP
error status, or a malformed/non-JSON body — makes `search_repositories`
return the empty list without raising. -/
theorem search_repositories_failure_empty (q so : String) (pp : Nat) (out : RequestOutcome)
    (h : failingFetch out = true) :
    (search_repositories q so pp out).2 = .ok (Json.arr []) := by
  rcases out with msg | r
  · rfl
  · by_cases hs : 400 ≤ r.status
    · by_cases h403 : r.status = 403 <;> simp [search_repositories, hs, h403]
    · simp only [failingFetch, decide_eq_true_eq, Bool.or_eq_true, hs, false_or] at h
      rcases r with ⟨st, rem, body, text⟩
      rcases body with _ | data
      · simp [search_repositories, hs]
      · simp [Option.isNone] at h

/-- Witness for C2: a concrete 403 response yields the empty list. -/
theorem search_repositories_failure_empty_witness :
    failingFetch (RequestOutcome.ok ⟨403, none, none, "rate limited"⟩) = true ∧
    (search_repositories "q" "stars" 30 (RequestOutcome.ok ⟨403, none, none, "rate limited"⟩)).2 =
      .ok (Json.arr []) :=
  ⟨rfl, search_repositories_failure_empty "q" "stars" 30 _ rfl⟩

/-- C7: on a successful response whose rate-limit-remaining header is
present (truthy) with an integer value below 10, the fetcher emits the
low-remaining warning and still returns exactly the `items` of the decoded
body — the warning never changes the result. -/
theorem search_repositories_low_remaining_warns (q so : String) (pp : Nat)
    (st : Nat) (s text : String) (data : Json) (n : Int)
    (hst : st < 400) (hs : s ≠ "") (hn : pyInt s = .ok n) (hlow : n < 10) :
    Event.warnLowRemaining s ∈ (search_repositories q so pp (.ok ⟨st, some s, some data, text⟩)).1 ∧
    (search_repositories q so pp (.ok ⟨st, some s, some data, text⟩)).2 =
      jsonDictGet data "items" (Json.arr []) := by
  have h400 : ¬ (400 ≤ st) := by omega
  simp [search_repositories, h400, truthyHeader, hs, hn, hlow]

/-- Witness for C7 at a concrete response with 5 remaining calls. -/
theorem search_repositories_low_remaining_warns_witness :
    Event.warnLowRemaining "5" ∈
      (search_repositories "q" "stars" 30 (.ok ⟨200, some "5", some (Json.obj []), ""⟩)).1 ∧
    (search_repositories "q" "stars" 30 (.ok ⟨200, some "5", some (Json.obj []), ""⟩)).2 =
      jsonDictGet (Json.obj []) "items" (Json.arr []) :=
  search_repositories_low_remaining_warns "q" "stars" 30 200 "5" "" (Json.obj []) 5
    (by decide) (by decide) (by rfl) (by decide)

/-- C8: `search_repositories` ends its trace with the fixed 0.5-second
throttling sleep and returns a value exactly on the no-exception (successful
fetch) path: a successful result is never produced without the sleep having
occurred last before the return, and every error path skips it. -/
theorem search_repositories_sleep_iff (q so : String) (pp : Nat) (out : RequestOutcome) :
    fetchNoException out = true ↔
      ((search_repositories q so pp out).1.getLast? = some (Event.sleepTenths 5) ∧
       ∃ items, (search_repositories q so pp out).2 = .ok items) := by
  rcases out with msg | ⟨st, rem, body, text⟩
  · simp [search_repositories, fetchNoException]
  · by_cases hs : 400 ≤ st
    · by_cases h403 : st = 403 <;>
        simp [search_repositories, fetchNoException, hs, h403, Nat.not_lt.mpr hs]
    · have hlt : st < 400 := Nat.not_le.mp hs
      rcases body with _ | data
      · simp [search_repositories, fetchNoException, hs, hlt]
      · rcases rem with _ | s
        · cases data <;>
            simp [search_repositories, fetchNoException, hs, hlt, jsonDictGet, truthyHeader]
        · by_cases hse : s = ""
          · subst hse
            cases data <;>
              simp [search_repositories, fetchNoException, hs, hlt, jsonDictGet, truthyHeader]
          · have hbne : (s != "") = true := by simpa using hse
            rcases hpi : pyInt s with e | n
            · simp [search_repositories, fetchNoException, hs, hlt, hbne, hpi, truthyHeader]
              exact fun _ => hse
            · by_cases hlow : n < 10 <;>
                cases data <;>
                  simp [search_repositories, fetchNoException, hs, hlt, hbne, hpi, hlow,
                    jsonDictGet, truthyHeader]

theorem sumArrLens_map_arr (c : List (String × List Json)) :
    sumArrLens (c.map fun p => (p.1, Json.arr p.2)) = (c.map fun p => p.2.length).sum := by
  induction c with
  | nil => rfl
  | cons hd tl ih => simp [sumArrLens, ih]

/-- C1: every snapshot written by `main` has `metadata.count` equal to the
length of its repositories array; the categories snapshot's count equals the
sum of the lengths across all category keys. -/
theorem mainWrites_count_correct (ut : String) (p t n : List Json)
    (c : List (String × List Json)) :
    ((mainWrites ut p t n c).map fun w => countMatches w.2) = [true, true, true, true] := by
  simp [mainWrites, save_json, countMatches, jLookup, List.lookup, sumArrLens_map_arr]

/-- C5: the query builder produces exactly the documented query string for
each report kind: a fixed high stars threshold plus one fixed topic for
popular; pushed within the last 7 days plus a stars threshold plus one
fixed topic for trending; created within the last 30 days plus a lower
threshold for new; and, for every category, the first keyword of its
keyword list plus a fixed stars threshold. -/
theorem queries_match_spec :
    get_popular_repos_query = "stars:>5000 topic:machine-learning" ∧
    (∀ today : Nat, get_trending_repos_query today =
      "pushed:>" ++ strftimeYmd (today - 7) ++ " stars:>1000 topic:ai") ∧
    (∀ today : Nat, get_new_repos_query today =
      "created:>" ++ strftimeYmd (today - 30) ++ " stars:>50") ∧
    get_category_repos_queries =
      [ ("LLM and Generative AI", "llm stars:>1000"),
        ("Machine Learning", "machine learning stars:>1000"),
        ("Natural Language Processing", "nlp stars:>1000"),
        ("AI Tools", "ai tools stars:>1000"),
        ("Data Science", "data science stars:>1000"),
        ("Computer Vision", "computer vision stars:>1000"),
        ("MLOps", "mlops stars:>1000") ] :=
  ⟨rfl, fun _ => rfl, fun _ => rfl, by decide⟩

/-- C9: within one run all four written snapshots carry the identical
`metadata.updated_at`, namely the single `update_time` sampled at line 189
before any of the four fetches. -/
theorem mainWrites_single_timestamp (ut : String) (p t n : List Json)
    (c : List (String × List Json)) :
    ((mainWrites ut p t n c).map fun w => metaUpdatedAt w.2) =
      [some (Json.str ut), some (Json.str ut), some (Json.str ut), some (Json.str ut)] := by
  simp [mainWrites, save_json, metaUpdatedAt, jLookup, List.lookup]

theorem char_eq_of_toNat_eq {c d : Char} (h : c.toNat = d.toNat) : c = d :=
  Char.ext (UInt32.toNat.inj h)

theorem char_ne_of_code {c d : Char} (m : Nat) (h : c.toNat ≠ m) (hd : d.toNat = m) : c ≠ d :=
  fun he => h (he ▸ hd)

theorem toNat_ofNat_lt {m : Nat} (h : m < 55296) : (Char.ofNat m).toNat = m := by
  unfold Char.ofNat
  split
  · rfl
  · rename_i hv
    exact absurd (Or.inl h) hv

theorem isJsonWs_false_of_codes {c : Char} (h32 : c.toNat ≠ 32) (h10 : c.toNat ≠ 10)
    (h9 : c.toNat ≠ 9) (h13 : c.toNat ≠ 13) : isJsonWs c = false := by
  have h1 : c ≠ ' ' := char_ne_of_code 32 h32 (by decide)
  have h2 : c ≠ '\n' := char_ne_of_code 10 h10 (by decide)
  have h3 : c ≠ '\t' := char_ne_of_code 9 h9 (by decide)
  have h4 : c ≠ '\r' := char_ne_of_code 13 h13 (by decide)
  simp [isJsonWs, h1, h2, h3, h4]

theorem skipWs_not_ws {c : Char} (l : List Char) (h : isJsonWs c = false) :
    skipWs (c :: l) = c :: l := by simp [skipWs, h]

theorem skipWs_ws {c : Char} (l : List Char) (h : isJsonWs c = true) :
    skipWs (c :: l) = skipWs l := by simp [skipWs, h]

theorem skipWs_spaces (n : Nat) (l : List Char) : skipWs (spaces n ++ l) = skipWs l := by
  induction n with
  | zero => simp [spaces]
  | succ k ih =>
    have hrepl : spaces (k + 1) ++ l = ' ' :: (spaces k ++ l) := by
      simp [spaces, List.replicate_succ]
    rw [hrepl, skipWs_ws _ (by decide), ih]

theorem natDigits_ne_nil (n : Nat) : natDigits n ≠ [] := by
  rw [natDigits]
  split <;> simp

theorem natDigits_isDig (n : Nat) : ∀ c ∈ natDigits n, isDig c = true := by
  induction n using Nat.strong_induction_on with
  | _ n ih =>
    rw [natDigits]
    split
    · rename_i h
      intro c hc
      simp only [List.mem_singleton] at hc
      subst hc
      simp only [isDig, toNat_ofNat_lt (show 48 + n < 55296 by omega), Bool.and_eq_true,
        decide_eq_true_eq]
      omega
    · rename_i h
      intro c hc
      rw [List.mem_append] at hc
      rcases hc with hc | hc
      · exact ih (n / 10) (Nat.div_lt_self (by omega) (by omega)) c hc
      · simp only [List.mem_singleton] at hc
        subst hc
        have hm : n % 10 < 10 := Nat.mod_lt n (by omega)
        simp only [isDig, toNat_ofNat_lt (show 48 + n % 10 < 55296 by omega), Bool.and_eq_true,
          decide_eq_true_eq]
        omega

theorem digitsVal_append (l : List Char) (c : Char) :
    digitsVal (l ++ [c]) = digitsVal l * 10 + (c.toNat - 48) := by
  simp [digitsVal, List.foldl_append]

theorem digitsVal_natDigits (n : Nat) : digitsVal (natDigits n) = n := by
  induction n using Nat.strong_induction_on with
  | _ n ih =>
    rw [natDigits]
    split
    · rename_i h
      simp [digitsVal, toNat_ofNat_lt (show 48 + n < 55296 by omega)]
    · rename_i h
      rw [digitsVal_append, ih (n / 10) (Nat.div_lt_self (by omega) (by omega)),
        toNat_ofNat_lt (show 48 + n % 10 < 55296 by omega)]
      omega

theorem takeDigits_append (ds rest : List Char) (hds : ∀ c ∈ ds, isDig c = true)
    (hrest : headSafe rest) : takeDigits (ds ++ rest) = (ds, rest) := by
  induction ds with
  | nil =>
    cases rest with
    | nil => rfl
    | cons c cs =>
      have hc : isDig c = false := hrest
      simp [takeDigits, hc]
  | cons d ds' ih =>
    have hd : isDig d = true := hds d (by simp)
    have ihh := ih fun c hc => hds c (by simp [hc])
    simp [takeDigits, hd, ihh]

theorem hexVal_hexDigitChar : ∀ m : Nat, m < 16 → hexVal (hexDigitChar m) = some m := by decide

theorem parseNum_intChars (i : Int) (rest : List Char) (h : headSafe rest) :
    parseNum (intChars i ++ rest) = some (i, rest) := by
  by_cases hi : i < 0
  · have h1 : intChars i = '-' :: natDigits i.natAbs := by simp [intChars, hi]
    have h2 := takeDigits_append (natDigits i.natAbs) rest (natDigits_isDig _) h
    simp [h1, parseNum, h2, natDigits_ne_nil, digitsVal_natDigits]
    simp [abs_of_neg hi]
  · have h1 : intChars i = natDigits i.toNat := by simp [intChars, hi]
    obtain ⟨d, ds', hd⟩ := List.exists_cons_of_ne_nil (natDigits_ne_nil i.toNat)
    have hdig : isDig d = true := natDigits_isDig i.toNat d (by rw [hd]; simp)
    have hne : d ≠ '-' := by
      intro he
      subst he
      simp [isDig] at hdig
    have h2 := takeDigits_append (natDigits i.toNat) rest (natDigits_isDig _) h
    rw [hd] at h2
    simp only [List.cons_append] at h2
    simp [h1, hd, parseNum, hne, h2]
    rw [← hd, digitsVal_natDigits]
    omega

theorem serVal_head_code (ind : Nat) (j : Json) :
    ∃ c cs, serVal ind j = c :: cs ∧
      (c.toNat = 110 ∨ c.toNat = 116 ∨ c.toNat = 102 ∨ c.toNat = 34 ∨ c.toNat = 91 ∨
       c.toNat = 123 ∨ c.toNat = 45 ∨ (48 ≤ c.toNat ∧ c.toNat ≤ 57)) := by
  cases j with
  | null => exact ⟨'n', ['u', 'l', 'l'], by simp [serVal], by decide⟩
  | bool b => cases b with
    | true => exact ⟨'t', ['r', 'u', 'e'], by simp [serVal], by decide⟩
    | false => exact ⟨'f', ['a', 'l', 's', 'e'], by simp [serVal], by decide⟩
  | num i =>
    by_cases hi : i < 0
    · refine ⟨'-', natDigits i.natAbs, ?_, by decide⟩
      simp [serVal, intChars, hi]
    · obtain ⟨d, ds', hd⟩ := List.exists_cons_of_ne_nil (natDigits_ne_nil i.toNat)
      have hdig : isDig d = true := natDigits_isDig i.toNat d (by rw [hd]; simp)
      refine ⟨d, ds', ?_, ?_⟩
      · simp [serVal, intChars, hi, hd]
      · simp only [isDig, Bool.and_eq_true, decide_eq_true_eq] at hdig
        omega
  | str s =>
    exact ⟨'"', (s.data.map escapeChar).flatten ++ ['"'], by simp [serVal, escapeString], by decide⟩
  | arr xs => cases xs with
    | nil => exact ⟨'[', [']'], by simp [serVal], by decide⟩
    | cons x xs' =>
      exact ⟨'[', '\n' :: serItems (ind + 2) x xs' ++ '\n' :: spaces ind ++ [']'],
        by simp [serVal], by decide⟩
  | obj kvs => cases kvs with
    | nil => exact ⟨'\x7b', ['\x7d'], by simp [serVal], by decide⟩
    | cons kv kvs' =>
      exact ⟨'\x7b', '\n' :: serMembers (ind + 2) kv kvs' ++ '\n' :: spaces ind ++ ['\x7d'],
        by simp [serVal], by decide⟩

theorem skipWs_serVal (ind : Nat) (j : Json) (rest : List Char) :
    skipWs (serVal ind j ++ rest) = serVal ind j ++ rest := by
  obtain ⟨c, cs, hc, hcode⟩ := serVal_head_code ind j
  rw [hc, List.cons_append, skipWs_not_ws]
  exact isJsonWs_false_of_codes (by omega) (by omega) (by omega) (by omega)

theorem parseStrBody_escape (l rest : List Char) :
    parseStrBody ((l.map escapeChar).flatten ++ '"' :: rest) = some (l, rest) := by
  induction l with
  | nil =>
    rw [List.map_nil, List.flatten_nil, List.nil_append, parseStrBody.eq_def]
    simp
  | cons c cs ih =>
    simp only [List.map_cons, List.flatten_cons, List.append_assoc]
    by_cases h1 : c = '"'
    · subst h1
      rw [show escapeChar '"' = ['\\', '"'] from by decide]
      simp only [List.cons_append, List.nil_append]
      rw [parseStrBody.eq_def]
      simp [ih]
    · by_cases h2 : c = '\\'
      · subst h2
        rw [show escapeChar '\\' = ['\\', '\\'] from by decide]
        simp only [List.cons_append, List.nil_append]
        rw [parseStrBody.eq_def]
        simp [ih]
      · by_cases h3 : c = '\n'
        · subst h3
          rw [show escapeChar '\n' = ['\\', 'n'] from by decide]
          simp only [List.cons_append, List.nil_append]
          rw [parseStrBody.eq_def]
          simp [ih]
        · by_cases h4 : c = '\r'
          · subst h4
            rw [show escapeChar '\r' = ['\\', 'r'] from by decide]
            simp only [List.cons_append, List.nil_append]
            rw [parseStrBody.eq_def]
            simp [ih]
          · by_cases h5 : c = '\t'
            · subst h5
              rw [show escapeChar '\t' = ['\\', 't'] from by decide]
              simp only [List.cons_append, List.nil_append]
              rw [parseStrBody.eq_def]
              simp [ih]
            · by_cases h6 : c.toNat = 8
              · have hc : Char.ofNat 8 = c :=
                  char_eq_of_toNat_eq (by rw [toNat_ofNat_lt (by omega), h6])
                have e1 : escapeChar c = ['\\', 'b'] := by
                  simp [escapeChar, h1, h2, h3, h4, h5, h6]
                rw [e1]
                simp only [List.cons_append, List.nil_append]
                rw [parseStrBody.eq_def]
                simp [ih]
                exact hc
              · by_cases h7 : c.toNat = 12
                · have hc : Char.ofNat 12 = c :=
                    char_eq_of_toNat_eq (by rw [toNat_ofNat_lt (by omega), h7])
                  have e1 : escapeChar c = ['\\', 'f'] := by
                    simp [escapeChar, h1, h2, h3, h4, h5, h6, h7]
                  rw [e1]
                  simp only [List.cons_append, List.nil_append]
                  rw [parseStrBody.eq_def]
                  simp [ih]
                  exact hc
                · by_cases h8 : c.toNat < 32
                  · have hhex1 := hexVal_hexDigitChar (c.toNat / 16) (by omega)
                    have hhex2 := hexVal_hexDigitChar (c.toNat % 16) (by omega)
                    have h0 : hexVal '0' = some 0 := by decide
                    have hc : Char.ofNat (((0 * 16 + 0) * 16 + c.toNat / 16) * 16 + c.toNat % 16) = c := by
                      rw [show ((0 * 16 + 0) * 16 + c.toNat / 16) * 16 + c.toNat % 16 = c.toNat by omega]
                      exact char_eq_of_toNat_eq (toNat_ofNat_lt (by omega))
                    have e1 : escapeChar c =
                        ['\\', 'u', '0', '0', hexDigitChar (c.toNat / 16), hexDigitChar (c.toNat % 16)] := by
                      simp [escapeChar, h1, h2, h3, h4, h5, h6, h7, h8]
                    rw [e1]
                    simp only [List.cons_append, List.nil_append]
                    rw [parseStrBody.eq_def]
                    simp [hhex1, hhex2, h0, ih]
                    rw [show c.toNat / 16 * 16 + c.toNat % 16 = c.toNat by omega]
                    exact char_eq_of_toNat_eq (toNat_ofNat_lt (by omega))
                  · have e1 : escapeChar c = [c] := by
                      simp [escapeChar, h1, h2, h3, h4, h5, h6, h7, h8]
                    rw [e1]
                    simp only [List.cons_append, List.nil_append]
                    rw [parseStrBody.eq_def]
                    simp [h1, h2, h8, ih]

theorem sizeJ_pos (j : Json) : 1 ≤ sizeJ j := by
  cases j <;> simp [sizeJ] <;> omega

theorem parseVal_ws_cons (g : Nat) {c : Char} (l : List Char) (h : isJsonWs c = true) :
    parseVal g (c :: l) = parseVal g l := by
  cases g with
  | zero => rfl
  | succ g' => rw [parseVal, parseVal, skipWs_ws _ h]

theorem skipWs_nl_spaces (m : Nat) {c : Char} (rest : List Char) (h : isJsonWs c = false) :
    skipWs ('\n' :: spaces m ++ c :: rest) = c :: rest := by
  rw [List.cons_append, skipWs_ws _ (by decide), skipWs_spaces, skipWs_not_ws _ h]

theorem parse_ser_all : ∀ fuel : Nat,
    (∀ (x : Json) (ind : Nat) (rest : List Char), sizeJ x ≤ fuel → headSafe rest →
      parseVal fuel (serVal ind x ++ rest) = some (x, rest)) ∧
    (∀ (x : Json) (xs : List Json) (ind m : Nat) (rest : List Char), 1 + sizeL (x :: xs) ≤ fuel →
      parseElems fuel ('\n' :: serItems ind x xs ++ '\n' :: spaces m ++ ']' :: rest) =
        some (x :: xs, rest)) ∧
    (∀ (kv : String × Json) (kvs : List (String × Json)) (ind m : Nat) (rest : List Char),
      1 + sizeM (kv :: kvs) ≤ fuel →
      parseMembers fuel ('\n' :: serMembers ind kv kvs ++ '\n' :: spaces m ++ '\x7d' :: rest) =
        some (kv :: kvs, rest)) := by
  intro fuel
  induction fuel with
  | zero =>
    refine ⟨?_, ?_, ?_⟩
    · intro x ind rest hfuel hrest
      have := sizeJ_pos x
      omega
    · intro x xs ind m rest hfuel
      omega
    · intro kv kvs ind m rest hfuel
      omega
  | succ g ih =>
    obtain ⟨ihP, ihQ, ihR⟩ := ih
    refine ⟨?_, ?_, ?_⟩
    · intro x ind rest hfuel hrest
      cases x with
      | null =>
        rw [show serVal ind Json.null = ['n', 'u', 'l', 'l'] from by simp [serVal]]
        simp [parseVal, skipWs, isJsonWs, expect]
      | bool b =>
        cases b with
        | true =>
          rw [show serVal ind (Json.bool true) = ['t', 'r', 'u', 'e'] from by simp [serVal]]
          simp [parseVal, skipWs, isJsonWs, expect]
        | false =>
          rw [show serVal ind (Json.bool false) = ['f', 'a', 'l', 's', 'e'] from by simp [serVal]]
          simp [parseVal, skipWs, isJsonWs, expect]
      | num i =>
        have hn := parseNum_intChars i rest hrest
        rw [show serVal ind (Json.num i) = intChars i from by simp [serVal]]
        by_cases hi : i < 0
        · rw [show intChars i = '-' :: natDigits i.natAbs from by simp [intChars, hi]] at hn ⊢
          simp only [List.cons_append] at hn ⊢
          simp [parseVal, skipWs, isJsonWs, hn]
        · obtain ⟨d, ds', hd⟩ := List.exists_cons_of_ne_nil (natDigits_ne_nil i.toNat)
          have hdig : isDig d = true := natDigits_isDig i.toNat d (by rw [hd]; simp)
          have hcode : 48 ≤ d.toNat ∧ d.toNat ≤ 57 := by
            simpa [isDig] using hdig
          rw [show intChars i = natDigits i.toNat from by simp [intChars, hi]] at hn ⊢
          rw [hd] at hn ⊢
          simp only [List.cons_append] at hn ⊢
          have hne1 : ¬ d = 'n' := char_ne_of_code 110 (by omega) (by decide)
          have hne2 : ¬ d = 't' := char_ne_of_code 116 (by omega) (by decide)
          have hne3 : ¬ d = 'f' := char_ne_of_code 102 (by omega) (by decide)
          have hne4 : ¬ d = '"' := char_ne_of_code 34 (by omega) (by decide)
          have hne5 : ¬ d = '[' := char_ne_of_code 91 (by omega) (by decide)
          have hne6 : ¬ d = '\x7b' := char_ne_of_code 123 (by omega) (by decide)
          have hws : isJsonWs d = false :=
            isJsonWs_false_of_codes (by omega) (by omega) (by omega) (by omega)
          rw [parseVal, skipWs_not_ws _ hws]
          simp [hne1, hne2, hne3, hne4, hne5, hne6, hn]
      | str s =>
        obtain ⟨sl⟩ := s
        have hps := parseStrBody_escape sl rest
        rw [show serVal ind (Json.str ⟨sl⟩) = '"' :: (sl.map escapeChar).flatten ++ ['"'] from
          by simp [serVal, escapeString]]
        simp only [List.cons_append, List.append_assoc, List.nil_append]
        rw [parseVal, skipWs_not_ws _ (by decide)]
        simp [hps]
      | arr xs =>
        cases xs with
        | nil =>
          cases g with
          | zero => simp [sizeJ, sizeL] at hfuel
          | succ g' =>
            rw [show serVal ind (Json.arr []) = ['[', ']'] from by simp [serVal]]
            simp [parseVal, skipWs, isJsonWs, parseElems]
        | cons y ys =>
          have hsz : 1 + sizeL (y :: ys) ≤ g := by
            simp [sizeJ] at hfuel
            omega
          have hQ := ihQ y ys (ind + 2) ind rest hsz
          rw [show serVal ind (Json.arr (y :: ys)) =
                '[' :: '\n' :: serItems (ind + 2) y ys ++ '\n' :: spaces ind ++ [']'] from
            by simp [serVal]]
          simp only [List.cons_append, List.append_assoc, List.nil_append] at hQ ⊢
          rw [parseVal, skipWs_not_ws _ (by decide)]
          simp [hQ]
      | obj kvs =>
        cases kvs with
        | nil =>
          cases g with
          | zero => simp [sizeJ, sizeM] at hfuel
          | succ g' =>
            rw [show serVal ind (Json.obj []) = ['\x7b', '\x7d'] from by simp [serVal]]
            simp [parseVal, skipWs, isJsonWs, parseMembers]
        | cons kv kvs' =>
          have hsz : 1 + sizeM (kv :: kvs') ≤ g := by
            simp [sizeJ] at hfuel
            omega
          have hR := ihR kv kvs' (ind + 2) ind rest hsz
          rw [show serVal ind (Json.obj (kv :: kvs')) =
                '\x7b' :: '\n' :: serMembers (ind + 2) kv kvs' ++ '\n' :: spaces ind ++ ['\x7d'] from
            by simp [serVal]]
          simp only [List.cons_append, List.append_assoc, List.nil_append] at hR ⊢
          rw [parseVal, skipWs_not_ws _ (by decide)]
          simp [hR]
    · intro x xs ind m rest hfuel
      obtain ⟨c, cs, hc, hcode⟩ := serVal_head_code ind x
      have hne : ¬ c = ']' := char_ne_of_code 93 (by omega) (by decide)
      cases xs with
      | nil =>
        have hskip : skipWs ('\n' :: serItems ind x [] ++ '\n' :: spaces m ++ ']' :: rest)
            = serVal ind x ++ ('\n' :: (spaces m ++ ']' :: rest)) := by
          simp only [List.cons_append, List.append_assoc]
          rw [skipWs_ws _ (by decide),
            show serItems ind x [] = spaces ind ++ serVal ind x from by simp [serItems]]
          simp only [List.append_assoc]
          rw [skipWs_spaces, skipWs_serVal]
        have hP := ihP x ind ('\n' :: (spaces m ++ ']' :: rest))
          (by simp [sizeL] at hfuel; omega)
          (show isDig '\n' = false by decide)
        have hPc : parseVal g (c :: (cs ++ ('\n' :: (spaces m ++ ']' :: rest))))
            = some (x, '\n' :: (spaces m ++ ']' :: rest)) := by
          rw [← List.cons_append, ← hc]
          exact hP
        have hskip2 : skipWs ('\n' :: (spaces m ++ ']' :: rest)) = ']' :: rest := by
          rw [skipWs_ws _ (by decide), skipWs_spaces, skipWs_not_ws _ (by decide)]
        rw [parseElems, hskip, hc, List.cons_append]
        simp only [List.cons_append, List.append_assoc] at hPc hskip2 ⊢
        simp [hne, hPc, hskip2]
      | cons y ys =>
        have hskip : skipWs ('\n' :: serItems ind x (y :: ys) ++ '\n' :: spaces m ++ ']' :: rest)
            = serVal ind x ++ (',' :: '\n' :: (serItems ind y ys ++ '\n' :: (spaces m ++ ']' :: rest))) := by
          simp only [List.cons_append, List.append_assoc]
          rw [skipWs_ws _ (by decide),
            show serItems ind x (y :: ys) =
              spaces ind ++ serVal ind x ++ ',' :: '\n' :: serItems ind y ys from by simp [serItems]]
          simp only [List.cons_append, List.append_assoc]
          rw [skipWs_spaces, skipWs_serVal]
        have hP := ihP x ind
          (',' :: '\n' :: (serItems ind y ys ++ '\n' :: (spaces m ++ ']' :: rest)))
          (by simp [sizeL] at hfuel; omega)
          (show isDig ',' = false by decide)
        have hPc : parseVal g
            (c :: (cs ++ (',' :: '\n' :: (serItems ind y ys ++ '\n' :: (spaces m ++ ']' :: rest)))))
            = some (x, ',' :: '\n' :: (serItems ind y ys ++ '\n' :: (spaces m ++ ']' :: rest))) := by
          rw [← List.cons_append, ← hc]
          exact hP
        have hQ := ihQ y ys ind m rest
          (by simp only [sizeL] at hfuel ⊢; have := sizeJ_pos x; omega)
        have hskip2 : skipWs (',' :: '\n' :: (serItems ind y ys ++ '\n' :: (spaces m ++ ']' :: rest)))
            = ',' :: ('\n' :: (serItems ind y ys ++ '\n' :: (spaces m ++ ']' :: rest))) := by
          rw [skipWs_not_ws _ (by decide)]
        rw [parseElems, hskip, hc, List.cons_append]
        simp only [List.cons_append, List.append_assoc] at hPc hskip2 hQ ⊢
        simp [hne, hPc, hskip2, hQ]
    · intro kv kvs ind m rest hfuel
      obtain ⟨k, v⟩ := kv
      obtain ⟨kl⟩ := k
      cases kvs with
      | nil =>
        have hP := ihP v ind ('\n' :: (spaces m ++ '\x7d' :: rest))
          (by simp [sizeM] at hfuel; omega)
          (show isDig '\n' = false by decide)
        have hps := parseStrBody_escape kl
          (':' :: ' ' :: (serVal ind v ++ ('\n' :: (spaces m ++ '\x7d' :: rest))))
        have hpv : parseVal g (' ' :: (serVal ind v ++ ('\n' :: (spaces m ++ '\x7d' :: rest))))
            = some (v, '\n' :: (spaces m ++ '\x7d' :: rest)) := by
          rw [parseVal_ws_cons g _ (by decide), hP]
        have hskip2 : skipWs ('\n' :: (spaces m ++ '\x7d' :: rest)) = '\x7d' :: rest := by
          rw [skipWs_ws _ (by decide), skipWs_spaces, skipWs_not_ws _ (by decide)]
        have hshape : ('\n' :: serMembers ind (⟨kl⟩, v) [] ++ '\n' :: spaces m ++ '\x7d' :: rest) =
            '\n' :: (spaces ind ++ ('"' :: ((kl.map escapeChar).flatten ++
              ('"' :: ':' :: ' ' :: (serVal ind v ++ ('\n' :: (spaces m ++ '\x7d' :: rest))))))) := by
          simp [serMembers, escapeString]
        rw [parseMembers, hshape, skipWs_ws _ (by decide), skipWs_spaces,
          skipWs_not_ws _ (by decide)]
        simp only [List.cons_append, List.append_assoc] at hps hpv hskip2 ⊢
        simp [hps, hpv, hskip2, skipWs_spaces, skipWs, isJsonWs]
      | cons w ws =>
        have hP := ihP v ind
          (',' :: '\n' :: (serMembers ind w ws ++ '\n' :: (spaces m ++ '\x7d' :: rest)))
          (by simp [sizeM] at hfuel; omega)
          (show isDig ',' = false by decide)
        have hps := parseStrBody_escape kl
          (':' :: ' ' :: (serVal ind v ++
            (',' :: '\n' :: (serMembers ind w ws ++ '\n' :: (spaces m ++ '\x7d' :: rest)))))
        have hpv : parseVal g (' ' :: (serVal ind v ++
            (',' :: '\n' :: (serMembers ind w ws ++ '\n' :: (spaces m ++ '\x7d' :: rest)))))
            = some (v, ',' :: '\n' :: (serMembers ind w ws ++ '\n' :: (spaces m ++ '\x7d' :: rest))) := by
          rw [parseVal_ws_cons g _ (by decide), hP]
        have hR := ihR w ws ind m rest
          (by simp only [sizeM] at hfuel ⊢; have := sizeJ_pos v; omega)
        have hshape : ('\n' :: serMembers ind (⟨kl⟩, v) (w :: ws) ++ '\n' :: spaces m ++ '\x7d' :: rest) =
            '\n' :: (spaces ind ++ ('"' :: ((kl.map escapeChar).flatten ++
              ('"' :: ':' :: ' ' :: (serVal ind v ++
                (',' :: '\n' :: (serMembers ind w ws ++ '\n' :: (spaces m ++ '\x7d' :: rest)))))))) := by
          simp [serMembers, escapeString]
        rw [parseMembers, hshape, skipWs_ws _ (by decide), skipWs_spaces,
          skipWs_not_ws _ (by decide)]
        simp only [List.cons_append, List.append_assoc] at hps hpv hR ⊢
        simp [hps, hpv, hR, skipWs_spaces, skipWs, isJsonWs]

theorem parseVal_serVal (x : Json) (fuel ind : Nat) (rest : List Char)
    (hfuel : sizeJ x ≤ fuel) (hrest : headSafe rest) :
    parseVal fuel (serVal ind x ++ rest) = some (x, rest) :=
  (parse_ser_all fuel).1 x ind rest hfuel hrest


theorem serVal_length_all : ∀ n : Nat,
    (∀ j : Json, sizeJ j ≤ n → ∀ ind, sizeJ j ≤ (serVal ind j).length) ∧
    (∀ (x : Json) (xs : List Json), 1 + sizeL (x :: xs) ≤ n → ∀ ind, 1 ≤ ind →
      sizeL (x :: xs) ≤ (serItems ind x xs).length) ∧
    (∀ (kv : String × Json) (kvs : List (String × Json)), 1 + sizeM (kv :: kvs) ≤ n → ∀ ind,
      sizeM (kv :: kvs) ≤ (serMembers ind kv kvs).length) := by
  intro n
  induction n with
  | zero =>
    refine ⟨?_, ?_, ?_⟩
    · intro j hj ind
      have := sizeJ_pos j
      omega
    · intro x xs h ind _
      omega
    · intro kv kvs h ind
      omega
  | succ g ih =>
    obtain ⟨ihA, ihB, ihC⟩ := ih
    refine ⟨?_, ?_, ?_⟩
    · intro j hj ind
      cases j with
      | null => simp [serVal, sizeJ]
      | bool b => cases b <;> simp [serVal, sizeJ]
      | num i =>
        rw [show serVal ind (Json.num i) = intChars i from by simp [serVal],
          show sizeJ (Json.num i) = 1 from by simp [sizeJ]]
        by_cases hi : i < 0
        · simp [intChars, hi]
        · rw [show intChars i = natDigits i.toNat from by simp [intChars, hi]]
          exact List.length_pos.mpr (natDigits_ne_nil _)
      | str s =>
        rw [show serVal ind (Json.str s) = '"' :: (s.data.map escapeChar).flatten ++ ['"'] from
            by simp [serVal, escapeString],
          show sizeJ (Json.str s) = 1 from by simp [sizeJ]]
        simp
      | arr xs =>
        cases xs with
        | nil => simp [serVal, sizeJ, sizeL]
        | cons y ys =>
          have hsz : 1 + sizeL (y :: ys) ≤ g := by
            simp [sizeJ] at hj
            omega
          have hB := ihB y ys hsz (ind + 2) (by omega)
          rw [show serVal ind (Json.arr (y :: ys)) =
              '[' :: '\n' :: serItems (ind + 2) y ys ++ '\n' :: spaces ind ++ [']'] from
            by simp [serVal]]
          simp only [sizeJ, List.length_append, List.length_cons, spaces,
            List.length_replicate, List.length_nil]
          omega
      | obj kvs =>
        cases kvs with
        | nil => simp [serVal, sizeJ, sizeM]
        | cons kv kvs' =>
          have hsz : 1 + sizeM (kv :: kvs') ≤ g := by
            simp [sizeJ] at hj
            omega
          have hC := ihC kv kvs' hsz (ind + 2)
          rw [show serVal ind (Json.obj (kv :: kvs')) =
              '\x7b' :: '\n' :: serMembers (ind + 2) kv kvs' ++ '\n' :: spaces ind ++ ['\x7d'] from
            by simp [serVal]]
          simp only [sizeJ, List.length_append, List.length_cons, spaces,
            List.length_replicate, List.length_nil]
          omega
    · intro x xs h ind hind
      cases xs with
      | nil =>
        have hA := ihA x (by simp [sizeL] at h; omega) ind
        rw [show serItems ind x [] = spaces ind ++ serVal ind x from by simp [serItems]]
        simp only [sizeL, List.length_append, spaces, List.length_replicate]
        omega
      | cons y ys =>
        have hA := ihA x (by simp [sizeL] at h; omega) ind
        have hB := ihB y ys (by simp only [sizeL] at h ⊢; have := sizeJ_pos x; omega) ind hind
        rw [show serItems ind x (y :: ys) =
            spaces ind ++ serVal ind x ++ ',' :: '\n' :: serItems ind y ys from by simp [serItems]]
        simp only [sizeL] at hB
        simp only [sizeL, List.length_append, List.length_cons, spaces, List.length_replicate]
        omega
    · intro kv kvs h ind
      obtain ⟨k, v⟩ := kv
      cases kvs with
      | nil =>
        have hA := ihA v (by simp [sizeM] at h; omega) ind
        rw [show serMembers ind (k, v) [] =
            spaces ind ++ escapeString k ++ ':' :: ' ' :: serVal ind v from by simp [serMembers]]
        simp only [sizeM, escapeString, List.length_append, List.length_cons, spaces,
          List.length_replicate]
        simp only [Prod.snd] at hA ⊢
        omega
      | cons w ws =>
        have hA := ihA v (by simp [sizeM] at h; omega) ind
        have hC := ihC w ws (by simp only [sizeM] at h ⊢; have := sizeJ_pos v; omega) ind
        rw [show serMembers ind (k, v) (w :: ws) =
            spaces ind ++ escapeString k ++ ':' :: ' ' :: serVal ind v ++
              ',' :: '\n' :: serMembers ind w ws from by simp [serMembers]]
        simp only [sizeM] at hC
        simp only [sizeM, escapeString, List.length_append, List.length_cons, spaces,
          List.length_replicate]
        omega

theorem parseJson_dumpJson (j : Json) : parseJson (dumpJson j) = some j := by
  have hlen : sizeJ j ≤ (serVal 0 j).length + 1 := by
    have := (serVal_length_all (sizeJ j)).1 j (le_refl _) 0
    omega
  have h := parseVal_serVal j ((serVal 0 j).length + 1) 0 [] hlen trivial
  simp only [List.append_nil] at h
  rw [show parseJson (dumpJson j) =
        (match parseVal ((serVal 0 j).length + 1) (serVal 0 j) with
         | some (v, r) => if skipWs r = [] then some v else none
         | none => none) from rfl]
  rw [h]
  simp [skipWs]

/-- C6: round trip through the snapshot file.  Writing any list of formatted
records with `save_json` produces the `json.dump(..., ensure_ascii=False,
indent=2)` text of the `metadata`/`repositories` envelope; parsing that text
back yields exactly the envelope that was written, and its `repositories`
value is structurally identical to the input list — same elements, same
field values, same order. -/
theorem save_json_roundtrip (records : List Json) (filepath update_time : String)
    (metadata : Option Json) :
    parseJson (dumpJson (save_json (Json.arr records) filepath metadata update_time).2) =
      some (save_json (Json.arr records) filepath metadata update_time).2 ∧
    jLookup (save_json (Json.arr records) filepath metadata update_time).2 "repositories" =
      some (Json.arr records) := by
  refine ⟨parseJson_dumpJson _, ?_⟩
  cases metadata <;> simp [save_json, jLookup, List.lookup]

end UpdateRepos
